import Mathlib

/-!
Verification development for the browser chat client (static/js of the
repository): a shallow embedding of the streaming event-reconciliation
layer (events.js), the application controller (app.js), the rendering
helpers it relies on (components.js), and the API wrapper, together with
theorems settling the specified properties.

Conventions of the embedding:
* JavaScript runtime values that flow through the wire payloads are
  modelled by the inductive type `JsValue` (null, undefined, booleans,
  numbers as integers, strings, objects as association lists, arrays).
  Truthiness, property access and string coercion follow the JavaScript
  semantics the source relies on.
* DOM mutations are modelled as updates of explicit records: a rendered
  assistant message is a list of `MsgPart`s, a tool result element is a
  `ToolPart`, a sub-agent panel is a `SubagentPanel`.
* Network calls and renderer side effects are returned as an explicit
  `Effect` list; their outcomes are supplied through environment records,
  since the code is single-threaded and every suspension point is a
  network await.
* Presentation-only machinery with no bearing on the verified properties
  is omitted and noted where it would appear: console logging, scrolling,
  streaming-indicator placement, the progress tracker, CSS classes, the
  quote rotation timers, and the regex-based `parseTaskOutput` summary
  extraction.
-/

/-- Model of a JavaScript runtime value as it appears in event payloads. -/
inductive JsValue where
  | null
  | undefined
  | bool (b : Bool)
  | num (n : Int)
  | str (s : String)
  | obj (fields : List (String × JsValue))
  | arr (items : List JsValue)

/-- JavaScript truthiness: null, undefined, false, 0 and the empty string
are falsy; every object and array is truthy. -/
def jsTruthy : JsValue → Bool
  | .null => false
  | .undefined => false
  | .bool b => b
  | .num n => n != 0
  | .str s => s != ""
  | .obj _ => true
  | .arr _ => true

/-- The JavaScript or-else idiom a or-default b: the left value if truthy,
otherwise the right value. -/
def jsOr (a b : JsValue) : JsValue :=
  if jsTruthy a then a else b

/-- Property access v.k (and v?.k): defined only on objects, first binding
wins as in a JavaScript object literal; everything else yields undefined. -/
def jsGet : JsValue → String → JsValue
  | .obj fields, k =>
    match fields.find? (fun p => p.1 == k) with
    | some p => p.2
    | none => .undefined
  | _, _ => .undefined

/-- Strict equality of a value against a string literal, as used by the
switch statements and triple-equals comparisons of the source. -/
def jsIsStr : JsValue → String → Bool
  | .str s, t => s == t
  | _, _ => false

/-- Whether a value is neither null nor undefined. -/
def jsNonNull : JsValue → Bool
  | .null => false
  | .undefined => false
  | _ => true

/-- Whether a value is an array (Array.isArray). -/
def jsIsArr : JsValue → Bool
  | .arr _ => true
  | _ => false

/-- Object.keys(v).length: field count of an object, element count of an
array, character count of a string, zero otherwise. -/
def objKeysLen : JsValue → Nat
  | .obj fields => fields.length
  | .arr items => items.length
  | .str s => s.length
  | _ => 0

/-- The .length property read as a number: array and string lengths;
reading .length of anything else gives undefined, which compares as 0
in the only guard the source uses it for. -/
def jsLengthNat : JsValue → Nat
  | .arr items => items.length
  | .str s => s.length
  | _ => 0

mutual

/-- String(v): the JavaScript string coercion for the values the payloads
carry.  Arrays join their coerced elements with commas. -/
def jsToDisplayString : JsValue → String
  | .null => "null"
  | .undefined => "undefined"
  | .bool true => "true"
  | .bool false => "false"
  | .num n => toString n
  | .str s => s
  | .obj _ => "[object Object]"
  | .arr items => jsDisplayItems items

/-- Comma join of the coerced elements of an array. -/
def jsDisplayItems : List JsValue → String
  | [] => ""
  | [v] => jsToDisplayString v
  | v :: rest => jsToDisplayString v ++ "," ++ jsDisplayItems rest

end

/-- Escaping of one character inside a JSON-serialised string (models the
escaping JSON.stringify performs; only the characters that can occur in
the payloads the client serialises are distinguished). -/
def jsonEscChar (c : Char) : List Char :=
  if c.toNat = 34 then ['\\', Char.ofNat 34]
  else if c = '\\' then ['\\', '\\']
  else if c = '\n' then ['\\', 'n']
  else [c]

mutual

/-- Model of the builtin JSON.stringify as the source uses it (the
two-space pretty-printing indentation is immaterial to every property
proved here and is not reproduced; undefined inside composites serialises
as null, as the builtin does inside arrays). -/
def jsonStringify : JsValue → String
  | .null => "null"
  | .undefined => "null"
  | .bool true => "true"
  | .bool false => "false"
  | .num n => toString n
  | .str s => ⟨'"' :: (s.data.flatMap jsonEscChar) ++ ['"']⟩
  | .arr items => "[" ++ jsonItems items ++ "]"
  | .obj fields => "\x7b" ++ jsonFields fields ++ "\x7d"

/-- Comma join of the serialised elements of an array. -/
def jsonItems : List JsValue → String
  | [] => ""
  | [v] => jsonStringify v
  | v :: rest => jsonStringify v ++ "," ++ jsonItems rest

/-- Comma join of the serialised key-value pairs of an object. -/
def jsonFields : List (String × JsValue) → String
  | [] => ""
  | [(k, v)] => jsonStringify (.str k) ++ ":" ++ jsonStringify v
  | (k, v) :: rest =>
    jsonStringify (.str k) ++ ":" ++ jsonStringify v ++ "," ++ jsonFields rest

end

/-! ## components.js: escapeHtml and the tool renderer strings -/

/-- The double-quote character. -/
def quoteChar : Char := Char.ofNat 34

/-- The single-quote character. -/
def aposChar : Char := Char.ofNat 39

/-- The per-character effect of the replace chain in escapeHtml
(components.js).  The source performs five sequential global regex
replaces, in the order amp, lt, gt, quot, apostrophe; because no
replacement string contains a character that a later replace still
rewrites, the chain acts exactly as this character map applied once
to the original string. -/
def escapeChar (c : Char) : List Char :=
  if c = '&' then ['&', 'a', 'm', 'p', ';']
  else if c = '<' then ['&', 'l', 't', ';']
  else if c = '>' then ['&', 'g', 't', ';']
  else if c = quoteChar then ['&', 'q', 'u', 'o', 't', ';']
  else if c = aposChar then ['&', '#', '0', '3', '9', ';']
  else [c]

/-- The string-level replace chain of escapeHtml. -/
def escapeHtmlCore (s : String) : String :=
  ⟨s.data.flatMap escapeChar⟩

/-- escapeHtml (components.js): null and undefined map to the empty
string, objects are JSON-serialised first (the catch branch of the
source only fires on cyclic values, which the inductive model cannot
represent), every other non-string is coerced with String, and the
result is passed through the replace chain. -/
def escapeHtml : JsValue → String
  | .null => ""
  | .undefined => ""
  | .obj fields => escapeHtmlCore (jsonStringify (.obj fields))
  | .arr items => escapeHtmlCore (jsonStringify (.arr items))
  | .str s => escapeHtmlCore s
  | v => escapeHtmlCore (jsToDisplayString v)

/-- The truncation notice appended by the tool output renderer when the
output exceeds 2000 characters. -/
def truncationNotice : String := "...\n(内容过长已截断)"

/-- The string interpolated into the tool output pre element by
addToolResult and updateToolStatus (components.js): the output coerced
to a string, truncated to 2000 characters, escaped, with the truncation
notice appended when it was cut. -/
def renderToolOutput (output : JsValue) : String :=
  escapeHtmlCore ((jsToDisplayString output).take 2000) ++
    (if (jsToDisplayString output).length > 2000 then truncationNotice else "")

/-- The string interpolated into the tool input pre element. -/
def renderToolInput (input : JsValue) : String :=
  escapeHtmlCore (jsonStringify input)

/-- The string interpolated into the tool error div. -/
def renderToolError (error : JsValue) : String :=
  escapeHtml error

/-- A character is markup-dangerous if it is one of the four characters
the escaping must eliminate. -/
def dangerousChar (c : Char) : Bool :=
  c = '<' || c = '>' || c = quoteChar || c = aposChar

/-- Every ampersand in the character list begins one of the five entities
the escaper emits; all other characters are passed over. -/
inductive AmpEscaped : List Char → Prop where
  | nil : AmpEscaped []
  | safe (c : Char) (l : List Char) : c ≠ '&' → AmpEscaped l → AmpEscaped (c :: l)
  | amp (l : List Char) : AmpEscaped l →
      AmpEscaped ('&' :: 'a' :: 'm' :: 'p' :: ';' :: l)
  | lt (l : List Char) : AmpEscaped l →
      AmpEscaped ('&' :: 'l' :: 't' :: ';' :: l)
  | gt (l : List Char) : AmpEscaped l →
      AmpEscaped ('&' :: 'g' :: 't' :: ';' :: l)
  | quot (l : List Char) : AmpEscaped l →
      AmpEscaped ('&' :: 'q' :: 'u' :: 'o' :: 't' :: ';' :: l)
  | apos (l : List Char) : AmpEscaped l →
      AmpEscaped ('&' :: '#' :: '0' :: '3' :: '9' :: ';' :: l)

/-- A string is HTML-safe when it contains none of the four dangerous
characters and every ampersand starts an entity. -/
def htmlSafe (s : String) : Prop :=
  (∀ c ∈ s.data, dangerousChar c = false) ∧ AmpEscaped s.data

/-- The list-level body of the replace chain. -/
def escListCore (l : List Char) : List Char := l.flatMap escapeChar

theorem escapeChar_not_dangerous (c d : Char) (hd : d ∈ escapeChar c) :
    dangerousChar d = false := by
  unfold escapeChar at hd
  split at hd
  · simp at hd
    rcases hd with h | h | h | h | h <;> subst h <;> decide
  · split at hd
    · simp at hd
      rcases hd with h | h | h | h <;> subst h <;> decide
    · split at hd
      · simp at hd
        rcases hd with h | h | h | h <;> subst h <;> decide
      · split at hd
        · simp at hd
          rcases hd with h | h | h | h | h | h <;> subst h <;> decide
        · split at hd
          · simp at hd
            rcases hd with h | h | h | h | h | h <;> subst h <;> decide
          · next h1 h2 h3 h4 h5 =>
            simp at hd
            subst hd
            simp [dangerousChar, h2, h3, h4, h5]

theorem ampEscaped_escapeChar (c : Char) (l : List Char) (hl : AmpEscaped l) :
    AmpEscaped (escapeChar c ++ l) := by
  unfold escapeChar
  split
  · exact AmpEscaped.amp l hl
  · split
    · exact AmpEscaped.lt l hl
    · split
      · exact AmpEscaped.gt l hl
      · split
        · exact AmpEscaped.quot l hl
        · split
          · exact AmpEscaped.apos l hl
          · next h1 _ _ _ _ =>
            exact AmpEscaped.safe c l h1 hl

theorem escListCore_not_dangerous (l : List Char) (c : Char) (hc : c ∈ escListCore l) :
    dangerousChar c = false := by
  rw [escListCore, List.mem_flatMap] at hc
  obtain ⟨d, _, hcd⟩ := hc
  exact escapeChar_not_dangerous d c hcd

theorem ampEscaped_escListCore (l m : List Char) (hm : AmpEscaped m) :
    AmpEscaped (escListCore l ++ m) := by
  induction l with
  | nil => exact hm
  | cons c t ih =>
    rw [escListCore, List.flatMap_cons, List.append_assoc]
    exact ampEscaped_escapeChar c _ ih

theorem htmlSafe_escapeHtmlCore (s : String) : htmlSafe (escapeHtmlCore s) := by
  refine ⟨fun c hc => escListCore_not_dangerous s.data c hc, ?_⟩
  have := ampEscaped_escListCore s.data [] AmpEscaped.nil
  rwa [List.append_nil] at this

theorem AmpEscaped.append {l m : List Char} (hl : AmpEscaped l) (hm : AmpEscaped m) :
    AmpEscaped (l ++ m) := by
  induction hl with
  | nil => exact hm
  | safe c l hc _ ih => exact AmpEscaped.safe c _ hc ih
  | amp l _ ih => exact AmpEscaped.amp _ ih
  | lt l _ ih => exact AmpEscaped.lt _ ih
  | gt l _ ih => exact AmpEscaped.gt _ ih
  | quot l _ ih => exact AmpEscaped.quot _ ih
  | apos l _ ih => exact AmpEscaped.apos _ ih

theorem htmlSafe_append {a b : String} (ha : htmlSafe a) (hb : htmlSafe b) :
    htmlSafe (a ++ b) := by
  refine ⟨?_, ?_⟩
  · intro c hc
    rw [String.data_append] at hc
    rcases List.mem_append.mp hc with h | h
    exacts [ha.1 c h, hb.1 c h]
  · rw [String.data_append]
    exact AmpEscaped.append ha.2 hb.2

theorem htmlSafe_empty : htmlSafe "" := by
  refine ⟨?_, AmpEscaped.nil⟩
  intro c hc
  cases hc

theorem htmlSafe_truncationNotice : htmlSafe truncationNotice := by
  have h : truncationNotice.data =
      ['.', '.', '.', '\n', '(', '内', '容', '过', '长', '已', '截', '断', ')'] := rfl
  refine ⟨?_, ?_⟩
  · intro c hc
    rw [h] at hc
    fin_cases hc <;> decide
  · rw [h]
    repeat refine AmpEscaped.safe _ _ (by decide) ?_
    exact AmpEscaped.nil

/-- C10: the HTML-escaping function used when rendering tool input, output
and error content is total over all payload values (null, undefined,
objects and non-strings included), always returns a string, and its result
contains no angle brackets, double quotes or single quotes and no
unescaped ampersand, so arbitrary event payload text cannot inject markup
into the rendered transcript.  Totality and string-valuedness hold by the
type of escapeHtml; this theorem states the character-level safety of
escapeHtml itself and of the three strings the tool renderer interpolates. -/
theorem escapeHtml_renders_safe (v : JsValue) :
    htmlSafe (escapeHtml v) ∧ htmlSafe (renderToolOutput v) ∧
    htmlSafe (renderToolInput v) ∧ htmlSafe (renderToolError v) := by
  have hesc : ∀ s, htmlSafe (escapeHtmlCore s) := htmlSafe_escapeHtmlCore
  have hmain : ∀ w, htmlSafe (escapeHtml w) := by
    intro w
    cases w
    · exact htmlSafe_empty
    · exact htmlSafe_empty
    · exact hesc _
    · exact hesc _
    · exact hesc _
    · exact hesc _
    · exact hesc _
  refine ⟨hmain v, ?_, hesc _, hmain v⟩
  unfold renderToolOutput
  refine htmlSafe_append (hesc _) ?_
  by_cases h : (jsToDisplayString v).length > 2000
  · rw [if_pos h]
    exact htmlSafe_truncationNotice
  · rw [if_neg h]
    exact htmlSafe_empty

/-! ## events.js: the stream decoder (EventStream) -/

/-- The state object carried by a tool part (part.state on the wire);
absent fields are undefined. -/
structure ToolCallState where
  status : JsValue
  input : JsValue
  output : JsValue
  title : JsValue
  error : JsValue

/-- The empty object substituted by part.state or-default. -/
def emptyToolState : ToolCallState :=
  ⟨.undefined, .undefined, .undefined, .undefined, .undefined⟩

/-- The part object of a message.part.updated payload; state is the
nested state object when present. -/
structure PartPayload where
  type : JsValue
  text : JsValue
  tool : JsValue
  id : JsValue
  state : Option ToolCallState
  reason : JsValue
  tokens : JsValue

/-- The info object of a message.updated payload. -/
structure MessageInfo where
  role : JsValue
  finish : JsValue
  tokens : JsValue
  cost : JsValue

/-- The properties object of an incoming frame, holding the fields the
decoder and the application read from it. -/
structure EventProps where
  part : Option PartPayload
  delta : JsValue
  info : Option MessageInfo
  questionId : JsValue
  questionsField : JsValue
  errorField : JsValue

/-- A decoded incoming frame: the type discriminant, the properties
object, and the backend enhancement flags the decoder consults. -/
structure IncomingEvent where
  type : JsValue
  properties : Option EventProps
  isSubagentFlag : JsValue
  subagentTypeFlag : JsValue
  subagentDescriptionFlag : JsValue
  subagentParsedFlag : JsValue
  toolCategoryFlag : JsValue

/-- The data object handleSubagentEvent builds and tracks (the
presentation-only toolSummary produced by parseTaskOutput is omitted:
no verified property depends on it). -/
structure SubagentData where
  id : String
  status : JsValue
  subagentType : JsValue
  description : JsValue
  prompt : JsValue
  output : JsValue
  title : JsValue
  error : JsValue
  parsed : JsValue

/-- The data object handleToolUpdate builds for regular tool events. -/
structure ToolData where
  id : JsValue
  tool : JsValue
  status : JsValue
  input : JsValue
  output : JsValue
  title : JsValue
  error : JsValue
  category : JsValue

/-- The domain events the decoder delivers to its onEvent callback
(the application's handleStreamEvent), one constructor per event name. -/
inductive Emitted where
  | serverConnected
  | textDelta (delta : JsValue)
  | reasoning (text : JsValue)
  | toolPending (d : ToolData)
  | toolRunning (d : ToolData)
  | toolCompleted (d : ToolData)
  | toolFailed (d : ToolData)
  | toolUpdate (d : ToolData)
  | subagentPending (d : SubagentData)
  | subagentRunning (d : SubagentData)
  | subagentCompleted (d : SubagentData)
  | subagentFailed (d : SubagentData)
  | subagentUpdate (d : SubagentData)
  | stepStart
  | stepFinish (reason : JsValue) (tokens : JsValue)
  | messageToolCalls (tokens : JsValue)
  | messageComplete (finish : JsValue) (tokens : JsValue) (cost : JsValue)
  | fileEdited
  | sessionStatus
  | sessionError (error : JsValue)
  | sessionIdle
  | errorEv (error : JsValue)
  | questionAsked (id : JsValue) (questions : JsValue)

/-- Lookup in a JavaScript Map modelled as an insertion-ordered
association list. -/
def mapFind : List (String × α) → String → Option α
  | [], _ => none
  | p :: rest, k => if p.1 == k then some p.2 else mapFind rest k

/-- Map.set: overwrite the existing binding in place, else append. -/
def mapSet : List (String × α) → String → α → List (String × α)
  | [], k, v => [(k, v)]
  | p :: rest, k, v => if p.1 == k then (k, v) :: rest else p :: mapSet rest k v

/-- Map.delete. -/
def mapDelete : List (String × α) → String → List (String × α)
  | [], _ => []
  | p :: rest, k => if p.1 == k then mapDelete rest k else p :: mapDelete rest k

/-- Map.has. -/
def mapHas (m : List (String × α)) (k : String) : Bool :=
  (mapFind m k).isSome

/-- getToolCategory (events.js): the fixed name-to-category table; a
null or undefined tool name reads the table at undefined and falls back
to other.  (A non-string, non-null tool name would throw in the source;
the throw is swallowed by the onmessage catch and cannot occur for wire
payloads, which carry string tool names.) -/
def getToolCategory (toolName : JsValue) : JsValue :=
  match toolName with
  | .str s =>
    let t := s.toLower
    if t == "bash" then .str "execution"
    else if t == "read" || t == "write" || t == "edit" then .str "file"
    else if t == "grep" || t == "glob" then .str "search"
    else if t == "task" then .str "subagent"
    else .str "other"
  | _ => .str "other"

/-- handleToolUpdate (events.js): build the tool data object and emit the
event selected by the state status, defaulting to tool_update. -/
def handleToolUpdate (now : Nat) (part : PartPayload) (ev : IncomingEvent) : List Emitted :=
  let state := part.state.getD emptyToolState
  let d : ToolData := {
    id := jsOr part.id (.str ("tool-" ++ toString now)),
    tool := part.tool,
    status := state.status,
    input := state.input,
    output := state.output,
    title := state.title,
    error := state.error,
    category := jsOr ev.toolCategoryFlag (getToolCategory part.tool) }
  if jsIsStr state.status "pending" then [.toolPending d]
  else if jsIsStr state.status "running" then [.toolRunning d]
  else if jsIsStr state.status "completed" then [.toolCompleted d]
  else if jsIsStr state.status "failed" then [.toolFailed d]
  else [.toolUpdate d]

/-- The map key handleSubagentEvent derives from the part: the part id
when truthy, else a timestamp-based fallback (Date.now() supplied as
now); coerced to the string key the Map uses. -/
def subagentPartId (now : Nat) (part : PartPayload) : String :=
  if jsTruthy part.id then jsToDisplayString part.id
  else "subagent-" ++ toString now

/-- handleSubagentEvent (events.js): build the enriched sub-agent data
object, record it in the live-tracking map, then emit the event selected
by the status; completed and failed additionally remove the id from the
map. -/
def handleSubagentEvent (now : Nat) (live : List (String × SubagentData))
    (part : PartPayload) (ev : IncomingEvent) :
    List (String × SubagentData) × List Emitted :=
  let state := part.state.getD emptyToolState
  let status := state.status
  let input := jsOr state.input (.obj [])
  let partId := subagentPartId now part
  let d : SubagentData := {
    id := partId,
    status := status,
    subagentType := jsOr ev.subagentTypeFlag
      (jsOr (jsGet input "subagent_type") (.str "general")),
    description := jsOr ev.subagentDescriptionFlag
      (jsOr (jsGet input "description") (.str "")),
    prompt := jsOr (jsGet input "prompt") (.str ""),
    output := jsOr state.output (.str ""),
    title := jsOr state.title (.str ""),
    error := jsOr state.error .null,
    parsed := jsOr ev.subagentParsedFlag .null }
  let live1 := mapSet live partId d
  if jsIsStr status "pending" then (live1, [.subagentPending d])
  else if jsIsStr status "running" then (live1, [.subagentRunning d])
  else if jsIsStr status "completed" then (mapDelete live1 partId, [.subagentCompleted d])
  else if jsIsStr status "failed" then (mapDelete live1 partId, [.subagentFailed d])
  else (live1, [.subagentUpdate d])

/-- handlePartUpdated (events.js): dispatch on the part type.  A text
part emits text_delta only when the delta is truthy; reasoning always
forwards the full text; tool parts route to the sub-agent handler when
the enhancement flag is set or the tool is the reserved task marker;
unknown part types are logged and dropped. -/
def handlePartUpdated (now : Nat) (live : List (String × SubagentData))
    (props : EventProps) (ev : IncomingEvent) :
    List (String × SubagentData) × List Emitted :=
  match props.part with
  | none => (live, [])
  | some part =>
    if !(jsTruthy part.type) then (live, [])
    else if jsIsStr part.type "text" then
      (live, if jsTruthy props.delta then [.textDelta props.delta] else [])
    else if jsIsStr part.type "reasoning" then
      (live, [.reasoning (jsOr part.text (.str ""))])
    else if jsIsStr part.type "tool" then
      if jsTruthy ev.isSubagentFlag || jsIsStr part.tool "task" then
        handleSubagentEvent now live part ev
      else (live, handleToolUpdate now part ev)
    else if jsIsStr part.type "step-start" then (live, [.stepStart])
    else if jsIsStr part.type "step-finish" then
      (live, [.stepFinish part.reason part.tokens])
    else (live, [])

/-- handleMessageUpdated (events.js): only truthy assistant info with a
truthy finish emits anything; tool-calls signals the tool loop, every
other truthy finish value signals completion with token and cost data. -/
def handleMessageUpdated (props : Option EventProps) : List Emitted :=
  match props with
  | none => []
  | some p =>
    match p.info with
    | none => []
    | some info =>
      if !(jsIsStr info.role "assistant") then []
      else if jsTruthy info.finish then
        if jsIsStr info.finish "tool-calls" then [.messageToolCalls info.tokens]
        else [.messageComplete info.finish info.tokens info.cost]
      else []

/-- The error field of a frame's properties, undefined when the
properties object is absent. -/
def propsErrorField (ev : IncomingEvent) : JsValue :=
  match ev.properties with
  | some p => p.errorField
  | none => .undefined

/-- The question request id of a question.asked frame. -/
def propsQuestionId (ev : IncomingEvent) : JsValue :=
  match ev.properties with
  | some p => p.questionId
  | none => .undefined

/-- The questions list of a question.asked frame. -/
def propsQuestions (ev : IncomingEvent) : JsValue :=
  match ev.properties with
  | some p => p.questionsField
  | none => .undefined

/-- The event type strings the decoder dispatch recognizes. -/
def recognizedEventTypes : List String :=
  ["server.connected", "server.heartbeat", "message.part.updated",
   "message.updated", "file.edited", "session.status", "session.error",
   "session.idle", "connection.error", "question.asked"]

/-- handleEvent (events.js): the switch over the frame type.  Heartbeats
are silently filtered; a frame whose type is not recognized reaches only
the logging default branch.  A frame with absent properties makes the
part/info destructuring throw, which the onmessage catch swallows; the
net effect is no emission. -/
def handleEvent (now : Nat) (live : List (String × SubagentData))
    (ev : IncomingEvent) : List (String × SubagentData) × List Emitted :=
  if jsIsStr ev.type "server.connected" then (live, [.serverConnected])
  else if jsIsStr ev.type "server.heartbeat" then (live, [])
  else if jsIsStr ev.type "message.part.updated" then
    match ev.properties with
    | none => (live, [])
    | some props => handlePartUpdated now live props ev
  else if jsIsStr ev.type "message.updated" then (live, handleMessageUpdated ev.properties)
  else if jsIsStr ev.type "file.edited" then (live, [.fileEdited])
  else if jsIsStr ev.type "session.status" then (live, [.sessionStatus])
  else if jsIsStr ev.type "session.error" then (live, [.sessionError (propsErrorField ev)])
  else if jsIsStr ev.type "session.idle" then (live, [.sessionIdle])
  else if jsIsStr ev.type "connection.error" then (live, [.errorEv (propsErrorField ev)])
  else if jsIsStr ev.type "question.asked" then
    (live, [.questionAsked (propsQuestionId ev) (propsQuestions ev)])
  else (live, [])

/-! ## app.js: the application controller -/

/-- A rendered tool result element: the data-tool-id attribute, the raw
values currently backing the rendered sections (the DOM text is their
escapeHtml projection), and the header title. -/
structure ToolPart where
  toolId : Option String
  tool : JsValue
  status : JsValue
  shownInput : Option JsValue
  shownOutput : Option JsValue
  shownError : Option JsValue
  title : String
  category : Option JsValue

/-- A rendered sub-agent panel: the last data object applied to it
(creation and update both re-render the panel from the data object). -/
structure SubagentPanel where
  lastData : SubagentData

/-- One rendered block inside the current assistant message.  The
accumulated streaming text is not a part in this list: the application
keeps it in currentMessageText and re-renders it wholesale after every
delta, so it is modelled as a field of the application state. -/
inductive MsgPart where
  | toolResult (p : ToolPart)
  | questionnaire (data : JsValue)
  | subagentPanel (p : SubagentPanel)
  | thinking (text : JsValue)

/-- Renderer and network side effects the controller performs, in the
order it performs them. -/
inductive Effect where
  | toast (msg : String) (kind : String)
  | statusUpdate (text : String) (icon : String)
  | rendererFooter (finish : JsValue) (tokens : JsValue) (cost : JsValue)
  | apiAbortSession
  | apiReplyQuestion (requestId : JsValue) (answers : List JsValue)
  | apiSendMessage
  | apiCreateSession
  | processSyncResponse

/-- The application state the verified operations read and mutate. -/
structure AppState where
  currentProject : Option String
  currentSession : Option String
  isStreaming : Bool
  eventStream : Bool
  currentMessage : Option (List MsgPart)
  currentMessageText : String
  pendingQuestionRequestId : JsValue
  isQuestionPending : Bool
  inputDisabled : Bool
  inputValue : String
  attachedFiles : List String
  sendBtnVisible : Bool
  stopBtnVisible : Bool
  appSubagents : List (String × Nat)
  isFirstMessageInSession : Bool
  personalRules : String

/-- setInputQuestionMode (app.js).  The active branch changes the
placeholder and highlight classes (presentation, not modelled) and sets
the pending flag; only the inactive branch touches the disabled
attribute, setting it to false. -/
def setInputQuestionMode (st : AppState) (active : Bool) : AppState :=
  if active then { st with isQuestionPending := true }
  else { st with isQuestionPending := false, inputDisabled := false }

/-- stopStreaming (app.js): clear the streaming flag, restore the send
buttons, hide the stop button, and disconnect and drop the stream
connection. -/
def stopStreaming (st : AppState) : AppState :=
  { st with
    isStreaming := false
    sendBtnVisible := true
    stopBtnVisible := false
    eventStream := false }

/-- The string appended to currentMessageText by the text_delta case of
handleStreamEvent (app.js): object-typed deltas (null included, since
typeof null is object) are JSON-serialised first, then the or-empty
default is applied before concatenation, so falsy non-object deltas
append nothing. -/
def appTextDeltaString (delta : JsValue) : String :=
  match delta with
  | .null => jsonStringify .null
  | .obj fields => jsonStringify (.obj fields)
  | .arr items => jsonStringify (.arr items)
  | .str s => s
  | .num n => if n = 0 then "" else toString n
  | .bool b => if b then "true" else ""
  | .undefined => ""

/-- updateToolStatus (components.js) as it acts on the modelled tool
element: the status is always overwritten; the input section is rewritten
only for a truthy, non-empty input object; the output and error sections
only for truthy values; the header title is left unchanged. -/
def applyUpdateToolStatus (d : ToolData) (p : ToolPart) : ToolPart :=
  { p with
    status := d.status,
    shownInput :=
      if jsTruthy d.input ∧ 0 < objKeysLen d.input then some d.input else p.shownInput,
    shownOutput := if jsTruthy d.output then some d.output else p.shownOutput,
    shownError := if jsTruthy d.error then some d.error else p.shownError }

/-- addToolResult (components.js): the freshly rendered tool element.
The data-tool-id attribute is attached afterwards by the caller. -/
def newToolPart (d : ToolData) : ToolPart :=
  { toolId := none,
    tool := d.tool,
    status := d.status,
    shownInput :=
      if jsTruthy d.input ∧ 0 < objKeysLen d.input then some d.input else none,
    shownOutput := if jsTruthy d.output then some d.output else none,
    shownError := if jsTruthy d.error then some d.error else none,
    title := jsToDisplayString (jsOr d.title d.tool),
    category := if jsTruthy d.category then some d.category else none }

/-- Whether a rendered part carries the given data-tool-id. -/
def partMatchesToolId (key : String) : MsgPart → Bool
  | .toolResult p => p.toolId == some key
  | _ => false

/-- In-place update of the element at an index (DOM nodes are stable
references; list positions model them because parts are only appended). -/
def listUpdateAt : List α → Nat → (α → α) → List α
  | [], _, _ => []
  | x :: xs, 0, f => f x :: xs
  | x :: xs, n + 1, f => x :: listUpdateAt xs n f

/-- The index of the first element satisfying the predicate
(querySelector returns the first matching element in document order). -/
def firstMatchIdx (p : α → Bool) : List α → Option Nat
  | [] => none
  | x :: xs => if p x then some 0 else (firstMatchIdx p xs).map (· + 1)

/-- handleToolEvent (app.js): the question tool with a questions input
renders a questionnaire (once per already-rendered tool id) and never a
tool element; otherwise the event upserts the tool element selected by
data-tool-id — update in place when present, else append a new element
and attach the id attribute when the id is truthy. -/
def appHandleToolEvent (st : AppState) (d : ToolData) : AppState :=
  if jsIsStr d.tool "question" ∧ jsTruthy (jsGet d.input "questions") then
    match st.currentMessage with
    | none => st
    | some parts =>
      if parts.any (partMatchesToolId (jsToDisplayString d.id)) then st
      else { st with currentMessage := some (parts ++ [.questionnaire d.input]) }
  else
    match st.currentMessage with
    | none => st
    | some parts =>
      match firstMatchIdx (partMatchesToolId (jsToDisplayString d.id)) parts with
      | some i =>
        { st with currentMessage := some (listUpdateAt parts i (fun p =>
            match p with
            | .toolResult tp => .toolResult (applyUpdateToolStatus d tp)
            | other => other)) }
      | none =>
        let p0 := newToolPart d
        let p1 := if jsTruthy d.id then { p0 with toolId := some (jsToDisplayString d.id) }
          else p0
        { st with currentMessage := some (parts ++ [.toolResult p1]) }

/-- updateSubagentPanel (components.js): re-render the panel from the
new data object. -/
def updatePanelPart (d : SubagentData) : MsgPart → MsgPart
  | .subagentPanel _ => .subagentPanel ⟨d⟩
  | p => p

/-- handleSubagentStart (app.js), for subagent_pending and
subagent_running: update the tracked panel in place, or create and track
a new one.  The progress tracker bookkeeping is presentation-only and
omitted. -/
def appSubagentStart (now : Nat) (st : AppState) (d : SubagentData) : AppState :=
  match st.currentMessage with
  | none => st
  | some parts =>
    let sid := if d.id ≠ "" then d.id else "subagent-" ++ toString now
    match mapFind st.appSubagents sid with
    | some idx =>
      { st with currentMessage := some (listUpdateAt parts idx (updatePanelPart d)) }
    | none =>
      { st with
        currentMessage := some (parts ++ [.subagentPanel ⟨d⟩])
        appSubagents := mapSet st.appSubagents sid parts.length }

/-- handleSubagentComplete / handleSubagentFailed (app.js): when the id
is tracked, re-render that panel and remove the id from the map; when it
is not, render a brand-new terminal panel (untracked).  The two handlers
differ only in the toast and progress bookkeeping. -/
def appSubagentFinish (st : AppState) (d : SubagentData) : AppState :=
  match mapFind st.appSubagents d.id with
  | some idx =>
    let st1 :=
      match st.currentMessage with
      | some parts =>
        { st with currentMessage := some (listUpdateAt parts idx (updatePanelPart d)) }
      | none => st
    { st1 with appSubagents := mapDelete st1.appSubagents d.id }
  | none =>
    match st.currentMessage with
    | some parts => { st with currentMessage := some (parts ++ [.subagentPanel ⟨d⟩]) }
    | none => st

/-- handleSubagentUpdate (app.js): patch the tracked panel only. -/
def appSubagentUpdate (st : AppState) (d : SubagentData) : AppState :=
  match mapFind st.appSubagents d.id with
  | some idx =>
    match st.currentMessage with
    | some parts =>
      { st with currentMessage := some (listUpdateAt parts idx (updatePanelPart d)) }
    | none => st
  | none => st

/-- addThinkingSection (components.js): a falsy text is ignored; the
first thinking section is inserted at the front of the message; later
calls overwrite the existing section's text. -/
def appAddThinking (st : AppState) (text : JsValue) : AppState :=
  if !(jsTruthy text) then st
  else
    match st.currentMessage with
    | none => st
    | some parts =>
      if parts.any (fun p => match p with | .thinking _ => true | _ => false) then
        { st with currentMessage := some (parts.map (fun p =>
            match p with
            | .thinking _ => .thinking text
            | other => other)) }
      else { st with currentMessage := some (.thinking text :: parts) }

/-- cleanupAfterMessage (app.js): clear the live sub-agent tracking map
(the delayed progress-tracker removal is a presentation timer, omitted). -/
def cleanupAfterMessage (st : AppState) : AppState :=
  { st with appSubagents := [] }

/-- handleStreamEvent (app.js): the switch over decoder events.  The
key normalisation at its top rewrites enhancement fields that the
decoder-built payloads already carry, and the metadata summary
extraction feeds only the presentation-side tool summary; both are
no-ops for the modelled state.  Events with no matching case
(server_connected, file_edited, session_status, error, tool_update)
fall to the default branch and change nothing. -/
def appHandleStreamEvent (now : Nat) (st : AppState) (e : Emitted) :
    AppState × List Effect :=
  match e with
  | .textDelta delta =>
    ({ st with currentMessageText := st.currentMessageText ++ appTextDeltaString delta }, [])
  | .reasoning text => (appAddThinking st text, [])
  | .toolPending d => (appHandleToolEvent st d, [])
  | .toolRunning d => (appHandleToolEvent st d, [])
  | .toolCompleted d => (appHandleToolEvent st d, [])
  | .toolFailed d => (appHandleToolEvent st d, [])
  | .subagentPending d =>
    (appSubagentStart now st d,
      [.statusUpdate ("执行 Subagent: " ++ jsToDisplayString (jsOr d.subagentType (.str "general")) ++ "...") "📦"])
  | .subagentRunning d =>
    (appSubagentStart now st d,
      [.statusUpdate ("执行 Subagent: " ++ jsToDisplayString (jsOr d.subagentType (.str "general")) ++ "...") "📦"])
  | .subagentCompleted d => (appSubagentFinish st d, [.statusUpdate "处理中..." "⏳"])
  | .subagentFailed d =>
    (appSubagentFinish st d,
      [.toast ("Subagent 执行失败: " ++ jsToDisplayString (jsOr d.subagentType (.str "unknown"))) "error"])
  | .subagentUpdate d => (appSubagentUpdate st d, [])
  | .messageComplete finish tokens cost =>
    (stopStreaming (cleanupAfterMessage st),
      [.rendererFooter finish tokens cost, .statusUpdate "准备就绪" "⚡"])
  | .messageToolCalls _ => (st, [.statusUpdate "执行工具..." "🔧"])
  | .questionAsked qid questions =>
    (match st.currentMessage with
     | none => (st, [])
     | some parts =>
       let st1 : AppState :=
         { st with
           pendingQuestionRequestId := qid
           currentMessage := some (parts ++ [.questionnaire (.obj [("id", qid), ("questions", questions)])])
           isStreaming := false
           sendBtnVisible := true
           stopBtnVisible := false }
       (setInputQuestionMode st1 true, [.statusUpdate "等待回复..." "❓"]))
  | .sessionError err =>
    (stopStreaming (cleanupAfterMessage st),
      [.toast ("会话错误: " ++ jsToDisplayString (jsOr err (.str "未知错误"))) "error"])
  | .sessionIdle => (cleanupAfterMessage st, [])
  | .stepStart => (st, [])
  | .stepFinish _ _ => (st, [])
  | .serverConnected => (st, [])
  | .fileEdited => (st, [])
  | .sessionStatus => (st, [])
  | .toolUpdate _ => (st, [])
  | .errorEv _ => (st, [])

/-- The composed system state: the decoder's live sub-agent map and the
application state. -/
structure SysState where
  live : List (String × SubagentData)
  app : AppState

/-- Deliver a list of decoder emissions to the application in order. -/
def appDeliver (now : Nat) (st : AppState) (es : List Emitted) :
    AppState × List Effect :=
  match es with
  | [] => (st, [])
  | e :: rest =>
    let (st1, effs1) := appHandleStreamEvent now st e
    let (st2, effs2) := appDeliver now st1 rest
    (st2, effs1 ++ effs2)

/-- One full pipeline step: decode an incoming frame and deliver every
emission to the application. -/
def sysStep (now : Nat) (st : SysState) (ev : IncomingEvent) :
    SysState × List Effect :=
  let (live1, emitted) := handleEvent now st.live ev
  let (app1, effs) := appDeliver now st.app emitted
  (⟨live1, app1⟩, effs)

/-- Run a sequence of incoming frames through the pipeline. -/
def sysRun (now : Nat) (st : SysState) (evs : List IncomingEvent) :
    SysState × List Effect :=
  match evs with
  | [] => (st, [])
  | ev :: rest =>
    let (st1, effs1) := sysStep now st ev
    let (st2, effs2) := sysRun now st1 rest
    (st2, effs1 ++ effs2)

/-! ## app.js: sending, aborting, question replies -/

/-- Outcome of the awaited send call: a resolved response value, or a
rejection whose error stringifies to the given message. -/
inductive SendResult where
  | ok (response : JsValue)
  | err (msg : String)

/-- Environment for one sendMessage invocation: the outcome of the lazy
session creation (none models a rejected create call) and the outcome of
the send call. -/
structure SendEnv where
  createResult : Option String
  sendResult : SendResult

/-- Whether a character list occurs as a contiguous run of another. -/
def charsContain (needle : List Char) : List Char → Bool
  | [] => needle.isEmpty
  | c :: rest => needle.isPrefixOf (c :: rest) || charsContain needle rest

/-- Whether the stringified error mentions a 504 gateway timeout, the
test the send catch block performs with includes. -/
def mentions504 (msg : String) : Bool :=
  charsContain "504".data msg.data

/-- The catch block of sendMessage (app.js): a 504-style error while the
stream connection object is still present is swallowed and streaming
continues; any other failure is surfaced as a toast, streaming is
stopped, and the status is reset. -/
def sendCatchHandler (st : AppState) (msg : String) : AppState × List Effect :=
  if mentions504 msg ∧ st.eventStream then (st, [])
  else
    (stopStreaming st, [.toast "发送消息失败" "error", .statusUpdate "准备就绪" "⚡"])

/-- startAssistantMessage (app.js): fresh assistant message element and
empty accumulated text (the streaming indicator is presentation). -/
def startAssistantMessage (st : AppState) : AppState :=
  { st with
    currentMessage := some []
    currentMessageText := "" }

/-- connectEventStream (app.js): with a project selected, replace any
previous connection with a fresh EventStream and connect it. -/
def connectEventStream (st : AppState) : AppState :=
  if st.currentProject.isNone then st else { st with eventStream := true }

/-- The guard sendMessage applies to a synchronous response: a truthy
response object whose parts array is non-empty. -/
def responseHasParts (resp : JsValue) : Bool :=
  jsTruthy resp && jsTruthy (jsGet resp "parts") && 0 < jsLengthNat (jsGet resp "parts")

/-- sendMessage (app.js).  The steps, in source order: project guard,
question-mode reset, text/file resolution, empty guard, streaming guard,
lazy session creation, part building with the one-time personal-rules
preamble, user-message append and input clearing (the chat log itself is
render-only and not modelled), assistant-message start, streaming UI
flip, stream connection, then the awaited send with its fallback and
catch handling.  The which-input parameters mirror the content and
explicitAttachments arguments. -/
def sendMessage (env : SendEnv) (st : AppState) (content : Option String)
    (explicitAttachments : Option (List String)) : AppState × List Effect :=
  if st.currentProject.isNone then (st, [.toast "请先选择一个项目" "warning"])
  else
    let st := if st.isQuestionPending then setInputQuestionMode st false else st
    let text := match content with
      | some c => c
      | none => st.inputValue.trim
    let files := match content with
      | some _ => explicitAttachments.getD []
      | none => st.attachedFiles
    if text = "" ∧ files = [] then (st, [])
    else if st.isStreaming then (st, [])
    else
      let sessionStep : Option (AppState × List Effect) :=
        if st.currentSession.isNone then
          match env.createResult with
          | some sid =>
            some ({ st with
                      currentSession := some sid
                      isFirstMessageInSession := true }, [.apiCreateSession])
          | none => none
        else some (st, [])
      match sessionStep with
      | none => (st, [.apiCreateSession, .toast "创建会话失败" "error"])
      | some (st, effs0) =>
        let st := if text ≠ "" ∧ st.isFirstMessageInSession ∧ st.personalRules.trim ≠ "" then
            { st with isFirstMessageInSession := false }
          else st
        let st := if content.isNone then
            { st with inputValue := "", attachedFiles := [] }
          else st
        let st := startAssistantMessage st
        let st := { st with
          isStreaming := true
          sendBtnVisible := false
          stopBtnVisible := true }
        let st := connectEventStream st
        let effs1 := effs0 ++ [.statusUpdate "生成中..." "⏳", .apiSendMessage]
        match env.sendResult with
        | .ok resp =>
          if responseHasParts resp then
            (stopStreaming st,
              effs1 ++ [.processSyncResponse, .statusUpdate "准备就绪" "⚡"])
          else (st, effs1)
        | .err msg =>
          let (st2, effs2) := sendCatchHandler st msg
          (st2, effs1 ++ effs2)

/-- abortMessage (app.js): a missing session or project returns at once;
otherwise the remote abort is requested and, whether it resolves (info
toast) or rejects (logged only), the finally block stops streaming and
resets the status. -/
def abortMessage (st : AppState) (remoteAbortThrows : Bool) : AppState × List Effect :=
  if st.currentSession.isNone ∨ st.currentProject.isNone then (st, [])
  else
    (stopStreaming st,
      [.apiAbortSession] ++
        (if remoteAbortThrows then [] else [.toast "生成已停止" "info"]) ++
        [.statusUpdate "准备就绪" "⚡"])

/-- The positional key for one question: its header, or the fallback
label built from its 1-based position. -/
def questionAnswerKey (idx : Nat) (q : JsValue) : String :=
  jsToDisplayString (jsOr (jsGet q "header") (.str ("Question " ++ toString (idx + 1))))

/-- One entry of the formatted reply (submitQuestionnaire, app.js): the
answer looked up under the question's key — kept as-is when it is
already an array, wrapped as a one-element string array when it is
defined and non-null, and the empty array otherwise (missing key
included). -/
def formatOneAnswer (answers : List (String × JsValue)) (idx : Nat) (q : JsValue) : JsValue :=
  let key := questionAnswerKey idx q
  match mapFind answers key with
  | some a =>
    if jsIsArr a then a
    else if jsNonNull a then .arr [.str (jsToDisplayString a)]
    else .arr []
  | none => .arr []

/-- The indexed map over the original questions list. -/
def formatAnswersIndexed (answers : List (String × JsValue)) :
    Nat → List JsValue → List JsValue
  | _, [] => []
  | idx, q :: rest =>
    formatOneAnswer answers idx q :: formatAnswersIndexed answers (idx + 1) rest

/-- The full answer formatting of submitQuestionnaire (app.js): with an
array of original questions, one positional entry per question in the
original order; otherwise the fallback maps the answer object's values. -/
def formatAnswers (questions : JsValue) (answers : List (String × JsValue)) :
    List JsValue :=
  match questions with
  | .arr qs => formatAnswersIndexed answers 0 qs
  | _ =>
    answers.map (fun p =>
      if jsIsArr p.2 then p.2
      else if jsTruthy p.2 then .arr [.str (jsToDisplayString p.2)]
      else .arr [])

/-- Environment for one submitQuestionnaire invocation: whether the
reply call rejects, and the environment of the fallback send used when
no request id is pending. -/
structure ReplyEnv where
  replyThrows : Bool
  sendEnv : SendEnv

/-- submitQuestionnaire (app.js): re-enable the input, fall back to a
plain message send when no request id is pending, guard on the project,
format the answers positionally, call the reply endpoint, and clear the
pending request id whether the call resolves or rejects. -/
def submitQuestionnaire (env : ReplyEnv) (st : AppState)
    (answers : List (String × JsValue)) (questions : JsValue) :
    AppState × List Effect :=
  let st := setInputQuestionMode st false
  if !(jsTruthy st.pendingQuestionRequestId) then
    sendMessage env.sendEnv st
      (some ("我已提交以下回答：\n" ++ jsonStringify (.obj answers))) none
  else if st.currentProject.isNone then (st, [.toast "错误：没有选中的项目" "error"])
  else
    let fa := formatAnswers questions answers
    let effs := [.statusUpdate "提交回答中..." "⏳",
      .apiReplyQuestion st.pendingQuestionRequestId fa]
    if env.replyThrows then
      ({ st with pendingQuestionRequestId := .null },
        effs ++ [.toast "提交回答失败" "error", .statusUpdate "准备就绪" "⚡"])
    else
      ({ st with
          pendingQuestionRequestId := .null
          isStreaming := true
          sendBtnVisible := false
          stopBtnVisible := true },
        effs ++ [.statusUpdate "处理中..." "⏳"])

/-! ## Fixtures used by the concrete runs -/

/-- An empty properties object. -/
def noProps : EventProps :=
  { part := none
    delta := .undefined
    info := none
    questionId := .undefined
    questionsField := .undefined
    errorField := .undefined }

/-- A frame with no recognised content and no enhancement flags. -/
def baseEvent : IncomingEvent :=
  { type := .undefined
    properties := none
    isSubagentFlag := .undefined
    subagentTypeFlag := .undefined
    subagentDescriptionFlag := .undefined
    subagentParsedFlag := .undefined
    toolCategoryFlag := .undefined }

/-- A part payload with every field absent. -/
def basePart : PartPayload :=
  { type := .undefined
    text := .undefined
    tool := .undefined
    id := .undefined
    state := none
    reason := .undefined
    tokens := .undefined }

/-- An application state in the middle of streaming an assistant
message: project and session selected, stream connected, empty current
message. -/
def appReady : AppState :=
  { currentProject := some "/work/demo"
    currentSession := some "sess-1"
    isStreaming := true
    eventStream := true
    currentMessage := some []
    currentMessageText := ""
    pendingQuestionRequestId := .null
    isQuestionPending := false
    inputDisabled := false
    inputValue := ""
    attachedFiles := []
    sendBtnVisible := false
    stopBtnVisible := true
    appSubagents := []
    isFirstMessageInSession := false
    personalRules := "" }

/-- The composed streaming state matching appReady. -/
def sysReady : SysState := ⟨[], appReady⟩

/-- A message.part.updated frame for a text part with the given full
text and delta fields. -/
def textFrame (txt delta : JsValue) : IncomingEvent :=
  { baseEvent with
    type := .str "message.part.updated"
    properties := some { noProps with
      part := some { basePart with type := .str "text", text := txt }
      delta := delta } }

/-- The parts of the current assistant message. -/
def msgParts (st : AppState) : List MsgPart := st.currentMessage.getD []

/-- A frame of a type the decoder does not recognise. -/
def unknownFrameExample : IncomingEvent :=
  { baseEvent with
    type := .str "lobby.update"
    properties := some noProps }

/-! ## C5: unknown frame types at the decoder -/

/-- C5 counterexample: a frame whose type lobby.update is not among the
recognized event types produces no emission at all — the decoder logs
and drops it instead of passing it through to the reconciler. -/
theorem handleEvent_unknown_not_forwarded :
    "lobby.update" ∉ recognizedEventTypes ∧
    handleEvent 0 [] unknownFrameExample = ([], []) := by
  constructor
  · decide
  · rfl

/-- C5 (amended): for every incoming frame whose type value is not one
of the recognized event types, the decoder logs the frame and discards
it: nothing is forwarded to the reconciler and the decoder state is
unchanged (the original claim said such frames are forwarded as no-ops). -/
theorem handleEvent_unknown_dropped (now : Nat)
    (live : List (String × SubagentData)) (ev : IncomingEvent)
    (h : ∀ t ∈ recognizedEventTypes, jsIsStr ev.type t = false) :
    handleEvent now live ev = (live, []) := by
  have h1 := h "server.connected" (by simp [recognizedEventTypes])
  have h2 := h "server.heartbeat" (by simp [recognizedEventTypes])
  have h3 := h "message.part.updated" (by simp [recognizedEventTypes])
  have h4 := h "message.updated" (by simp [recognizedEventTypes])
  have h5 := h "file.edited" (by simp [recognizedEventTypes])
  have h6 := h "session.status" (by simp [recognizedEventTypes])
  have h7 := h "session.error" (by simp [recognizedEventTypes])
  have h8 := h "session.idle" (by simp [recognizedEventTypes])
  have h9 := h "connection.error" (by simp [recognizedEventTypes])
  have h10 := h "question.asked" (by simp [recognizedEventTypes])
  simp [handleEvent, h1, h2, h3, h4, h5, h6, h7, h8, h9, h10]

/-- C5 witness: the amended theorem applied to the lobby.update frame. -/
theorem handleEvent_unknown_dropped_witness :
    (∀ t ∈ recognizedEventTypes, jsIsStr unknownFrameExample.type t = false) ∧
    handleEvent 0 [] unknownFrameExample = ([], []) :=
  ⟨by decide, handleEvent_unknown_dropped 0 [] unknownFrameExample (by decide)⟩

/-! ## C1: text deltas and the absent full-text path -/

/-- The same frame with the part's full text replaced, used to state
that the streaming path never consults part.text. -/
def withPartText (ev : IncomingEvent) (t : JsValue) : IncomingEvent :=
  match ev.properties with
  | none => ev
  | some props =>
    match props.part with
    | none => ev
    | some part =>
      { ev with properties := some { props with part := some { part with text := t } } }

/-- C1 counterexample: a text part event that carries the full text
hello and no delta leaves the accumulated text empty — the full text is
not applied — while the logically equivalent delta-only event
accumulates hello, so the delta-only and full-text-only representations
do not converge. -/
theorem text_full_text_not_applied :
    (sysRun 0 sysReady [textFrame (.str "hello") .undefined]).1.app.currentMessageText = "" ∧
    (sysRun 0 sysReady [textFrame .undefined (.str "hello")]).1.app.currentMessageText = "hello" ∧
    ("" : String) ≠ "hello" := by
  refine ⟨rfl, rfl, by decide⟩

theorem handleEvent_partUpdated (now : Nat) (live : List (String × SubagentData))
    (ev : IncomingEvent) (props : EventProps)
    (hty : ev.type = .str "message.part.updated")
    (hprops : ev.properties = some props) :
    handleEvent now live ev = handlePartUpdated now live props ev := by
  unfold handleEvent
  rw [hty, hprops]
  rfl

theorem handlePartUpdated_text (now : Nat) (live : List (String × SubagentData))
    (props : EventProps) (ev : IncomingEvent) (part : PartPayload)
    (hpart : props.part = some part) (htext : part.type = .str "text") :
    handlePartUpdated now live props ev =
      (live, if jsTruthy props.delta then [.textDelta props.delta] else []) := by
  unfold handlePartUpdated
  rw [hpart]
  dsimp only
  rw [htext]
  rfl

/-- C1 (amended): for every message.part.updated event with part type
text, a truthy delta is appended to the accumulated text of the current
streaming message; when the delta is absent (or falsy) the event is
dropped — the full part.text is never consulted on the streaming path
and the accumulated text is unchanged — so a delta-only and a
full-text-only representation of the same content need not converge
(the original claim said an absent delta makes the full text replace
the accumulated text and that the two representations always converge). -/
theorem text_delta_append_only (now : Nat) (st : SysState) (ev : IncomingEvent)
    (props : EventProps) (part : PartPayload) (t : JsValue)
    (hty : ev.type = .str "message.part.updated")
    (hprops : ev.properties = some props)
    (hpart : props.part = some part)
    (htext : part.type = .str "text") :
    (jsTruthy props.delta = true →
      (sysStep now st ev).1.app.currentMessageText =
        st.app.currentMessageText ++ appTextDeltaString props.delta) ∧
    (jsTruthy props.delta = false → sysStep now st ev = (st, [])) ∧
    sysStep now st (withPartText ev t) = sysStep now st ev := by
  have hdec : handleEvent now st.live ev =
      (st.live, if jsTruthy props.delta then [.textDelta props.delta] else []) := by
    rw [handleEvent_partUpdated now st.live ev props hty hprops]
    exact handlePartUpdated_text now st.live props ev part hpart htext
  have hw : withPartText ev t =
      { ev with properties := some { props with part := some { part with text := t } } } := by
    unfold withPartText
    rw [hprops]
    dsimp only
    rw [hpart]
  have h1 : (withPartText ev t).type = .str "message.part.updated" := by
    rw [hw]
    exact hty
  have h2 : (withPartText ev t).properties =
      some { props with part := some { part with text := t } } := by
    rw [hw]
  have hdec2 : handleEvent now st.live (withPartText ev t) =
      (st.live, if jsTruthy props.delta then [.textDelta props.delta] else []) := by
    rw [handleEvent_partUpdated now st.live (withPartText ev t)
      { props with part := some { part with text := t } } h1 h2]
    exact handlePartUpdated_text now st.live
      { props with part := some { part with text := t } } (withPartText ev t)
      { part with text := t } rfl htext
  refine ⟨?_, ?_, ?_⟩
  · intro hd
    simp [sysStep, hdec, hd, appDeliver, appHandleStreamEvent]
  · intro hd
    simp [sysStep, hdec, hd, appDeliver]
  · simp [sysStep, hdec, hdec2]

/-- C1 witness: the amended theorem applied at a delta-carrying frame in
the concrete streaming state. -/
theorem text_delta_append_only_witness :
    (sysStep 0 sysReady (textFrame .undefined (.str "Hi"))).1.app.currentMessageText = "Hi" ∧
    sysStep 0 sysReady (withPartText (textFrame .undefined (.str "Hi")) (.str "x")) =
      sysStep 0 sysReady (textFrame .undefined (.str "Hi")) := by
  have h := text_delta_append_only 0 sysReady (textFrame .undefined (.str "Hi"))
    { noProps with part := some { basePart with type := .str "text", text := .undefined }, delta := .str "Hi" }
    { basePart with type := .str "text", text := .undefined } (.str "x")
    rfl rfl rfl rfl
  refine ⟨?_, h.2.2⟩
  have h1 := h.1 rfl
  rw [h1]
  rfl

/-! ## C2: message.updated completion rules -/

/-- A message.updated frame with the given info fields. -/
def msgUpdatedFrame (role finish tokens cost : JsValue) : IncomingEvent :=
  { baseEvent with
    type := .str "message.updated"
    properties := some { noProps with
      info := some { role := role, finish := finish, tokens := tokens, cost := cost } } }

theorem jsIsStr_eq {v : JsValue} {t : String} (h : jsIsStr v t = true) : v = .str t := by
  cases v <;> simp_all [jsIsStr]

theorem handleEvent_msgUpdated (now : Nat) (live : List (String × SubagentData))
    (ev : IncomingEvent) (props : EventProps)
    (hty : ev.type = .str "message.updated")
    (hprops : ev.properties = some props) :
    handleEvent now live ev = (live, handleMessageUpdated (some props)) := by
  unfold handleEvent
  rw [hty, hprops]
  rfl

/-- C2 counterexample: an assistant message.updated whose finish is the
empty string — a non-null value different from tool-calls — changes
nothing: no completion signal is emitted and streaming continues, where
the claim requires the message to transition to complete. -/
theorem message_empty_finish_not_complete :
    jsNonNull (JsValue.str "") = true ∧
    jsIsStr (JsValue.str "") "tool-calls" = false ∧
    sysStep 0 sysReady (msgUpdatedFrame (.str "assistant") (.str "") .undefined .undefined) =
      (sysReady, []) ∧
    sysReady.app.isStreaming = true :=
  ⟨rfl, rfl, rfl, rfl⟩

/-- C2 (amended): for every message.updated event, info with a role
other than assistant causes no state change; a finish of tool-calls does
not mark the message complete (only a tool-calls status signal is
emitted and streaming continues); and for any other truthy — non-null
and non-empty — finish value the message completes: streaming stops,
the stream connection is dropped, and a completion signal carrying the
token and cost data is emitted to the renderer (the original claim
required this for every non-null finish, but a falsy finish such as the
empty string is ignored). -/
theorem message_updated_completion (now : Nat) (st : SysState) (ev : IncomingEvent)
    (props : EventProps) (info : MessageInfo)
    (hty : ev.type = .str "message.updated")
    (hprops : ev.properties = some props)
    (hinfo : props.info = some info) :
    (jsIsStr info.role "assistant" = false → sysStep now st ev = (st, [])) ∧
    (jsIsStr info.role "assistant" = true → jsIsStr info.finish "tool-calls" = true →
      sysStep now st ev = (st, [.statusUpdate "执行工具..." "🔧"])) ∧
    (jsIsStr info.role "assistant" = true → jsTruthy info.finish = true →
      jsIsStr info.finish "tool-calls" = false →
      (sysStep now st ev).1.app = stopStreaming (cleanupAfterMessage st.app) ∧
      (sysStep now st ev).1.app.isStreaming = false ∧
      (sysStep now st ev).1.app.eventStream = false ∧
      (sysStep now st ev).2 =
        [.rendererFooter info.finish info.tokens info.cost, .statusUpdate "准备就绪" "⚡"]) := by
  have hdec := handleEvent_msgUpdated now st.live ev props hty hprops
  refine ⟨?_, ?_, ?_⟩
  · intro hrole
    have hmu : handleMessageUpdated (some props) = [] := by
      unfold handleMessageUpdated
      dsimp only
      rw [hinfo]
      dsimp only
      rw [hrole]
      rfl
    simp [sysStep, hdec, hmu, appDeliver]
  · intro hrole hfc
    have hf := jsIsStr_eq hfc
    have hmu : handleMessageUpdated (some props) = [.messageToolCalls info.tokens] := by
      unfold handleMessageUpdated
      dsimp only
      rw [hinfo]
      dsimp only
      rw [hrole, hf]
      rfl
    simp [sysStep, hdec, hmu, appDeliver, appHandleStreamEvent]
  · intro hrole htr hfc
    have hmu : handleMessageUpdated (some props) =
        [.messageComplete info.finish info.tokens info.cost] := by
      unfold handleMessageUpdated
      dsimp only
      rw [hinfo]
      dsimp only
      rw [hrole, htr, hfc]
      rfl
    refine ⟨?_, ?_, ?_, ?_⟩ <;>
      simp [sysStep, hdec, hmu, appDeliver, appHandleStreamEvent, stopStreaming,
        cleanupAfterMessage]

/-- C2 witness: the amended theorem applied to a non-assistant update, a
tool-calls finish, and a length finish. -/
theorem message_updated_completion_witness :
    sysStep 0 sysReady (msgUpdatedFrame (.str "user") (.str "stop") .undefined .undefined) =
      (sysReady, []) ∧
    sysStep 0 sysReady (msgUpdatedFrame (.str "assistant") (.str "tool-calls") .undefined .undefined) =
      (sysReady, [.statusUpdate "执行工具..." "🔧"]) ∧
    (sysStep 0 sysReady (msgUpdatedFrame (.str "assistant") (.str "length") (.num 42) (.num 3))).1.app.isStreaming = false ∧
    (sysStep 0 sysReady (msgUpdatedFrame (.str "assistant") (.str "length") (.num 42) (.num 3))).2 =
      [.rendererFooter (.str "length") (.num 42) (.num 3), .statusUpdate "准备就绪" "⚡"] := by
  refine ⟨?_, ?_, ?_, ?_⟩
  · exact (message_updated_completion 0 sysReady _
      { noProps with info := some { role := .str "user", finish := .str "stop", tokens := .undefined, cost := .undefined } }
      { role := .str "user", finish := .str "stop", tokens := .undefined, cost := .undefined }
      rfl rfl rfl).1 rfl
  · exact (message_updated_completion 0 sysReady _
      { noProps with info := some { role := .str "assistant", finish := .str "tool-calls", tokens := .undefined, cost := .undefined } }
      { role := .str "assistant", finish := .str "tool-calls", tokens := .undefined, cost := .undefined }
      rfl rfl rfl).2.1 rfl rfl
  · exact ((message_updated_completion 0 sysReady _
      { noProps with info := some { role := .str "assistant", finish := .str "length", tokens := .num 42, cost := .num 3 } }
      { role := .str "assistant", finish := .str "length", tokens := .num 42, cost := .num 3 }
      rfl rfl rfl).2.2 rfl rfl rfl).2.1
  · exact ((message_updated_completion 0 sysReady _
      { noProps with info := some { role := .str "assistant", finish := .str "length", tokens := .num 42, cost := .num 3 } }
      { role := .str "assistant", finish := .str "length", tokens := .num 42, cost := .num 3 }
      rfl rfl rfl).2.2 rfl rfl rfl).2.2.2

/-! ## C8: positional formatting of question replies -/

theorem jsToDisplayString_str (s : String) : jsToDisplayString (.str s) = s := by
  simp [jsToDisplayString]

theorem formatAnswersIndexed_length (answers : List (String × JsValue))
    (idx : Nat) (qs : List JsValue) :
    (formatAnswersIndexed answers idx qs).length = qs.length := by
  induction qs generalizing idx with
  | nil => rfl
  | cons q rest ih => simp [formatAnswersIndexed, ih]

theorem formatAnswersIndexed_missing (answers : List (String × JsValue))
    (qs : List JsValue) (idx i : Nat) (h : i < qs.length)
    (hmiss : mapFind answers (questionAnswerKey (idx + i) (qs.get ⟨i, h⟩)) = none) :
    (formatAnswersIndexed answers idx qs).getD i .undefined = .arr [] := by
  induction qs generalizing idx i with
  | nil => simp at h
  | cons q rest ih =>
    cases i with
    | zero =>
      simp only [List.get] at hmiss
      unfold formatAnswersIndexed formatOneAnswer
      simp only [List.getD, List.getElem?_cons_zero, Option.getD_some]
      rw [show idx + 0 = idx from rfl] at hmiss
      rw [hmiss]
      rfl
    | succ n =>
      have hn : n < rest.length := by
        simp at h
        omega
      have hk : mapFind answers (questionAnswerKey ((idx + 1) + n) (rest.get ⟨n, hn⟩)) = none := by
        rw [show (idx + 1) + n = idx + (n + 1) from by omega]
        exact hmiss
      have := ih (idx + 1) n hn hk
      simpa [formatAnswersIndexed, List.getD] using this

/-- C8: for every answers object and original questions list, the reply
formatter produces a positional array with one entry per original
question in the original question order, and a question whose expected
answer key is missing from the answers object yields an empty list at
its position.  Formatting never raises: formatAnswers is a total
function of its two inputs. -/
theorem question_reply_positional (answers : List (String × JsValue))
    (qs : List JsValue) (i : Nat) (h : i < qs.length)
    (hmiss : mapFind answers (questionAnswerKey i (qs.get ⟨i, h⟩)) = none) :
    (formatAnswers (.arr qs) answers).length = qs.length ∧
    (formatAnswers (.arr qs) answers).getD i .undefined = .arr [] := by
  constructor
  · exact formatAnswersIndexed_length answers 0 qs
  · have := formatAnswersIndexed_missing answers qs 0 i h (by simpa using hmiss)
    simpa [formatAnswers] using this

/-- C8 witness: the theorem applied to a two-question list whose first
question's key is absent from the answers object. -/
theorem question_reply_positional_witness :
    (formatAnswers (.arr [.obj [("header", .str "Color")], .obj []])
        [("Other", .str "x")]).length = 2 ∧
    (formatAnswers (.arr [.obj [("header", .str "Color")], .obj []])
        [("Other", .str "x")]).getD 0 .undefined = .arr [] := by
  have := question_reply_positional [("Other", .str "x")]
    [.obj [("header", .str "Color")], .obj []] 0 (by decide)
    (by simp [mapFind, questionAnswerKey, jsGet, jsOr, jsTruthy, jsToDisplayString_str])
  exact this

/-! ## C3: tool event upsert and field-level merge -/

theorem firstMatchIdx_append_none (p : α → Bool) (l : List α) (x : α)
    (h : firstMatchIdx p l = none) :
    firstMatchIdx p (l ++ [x]) = if p x then some l.length else none := by
  induction l with
  | nil => simp [firstMatchIdx]
  | cons y ys ih =>
    by_cases hy : p y
    · simp [firstMatchIdx, hy] at h
    · simp [firstMatchIdx, hy, Option.map_eq_none'] at h
      simp [List.cons_append, firstMatchIdx, hy, ih h, List.length_cons]

theorem listUpdateAt_append_end (l : List α) (x : α) (f : α → α) :
    listUpdateAt (l ++ [x]) l.length f = l ++ [f x] := by
  induction l with
  | nil => rfl
  | cons y ys ih => simp [listUpdateAt, ih]

theorem filter_eq_nil_of_firstMatchIdx_none (p : α → Bool) (l : List α)
    (h : firstMatchIdx p l = none) : l.filter p = [] := by
  induction l with
  | nil => rfl
  | cons y ys ih =>
    by_cases hy : p y
    · simp [firstMatchIdx, hy] at h
    · simp [firstMatchIdx, hy, Option.map_eq_none'] at h
      simp [List.filter, hy, ih h]

theorem jsTruthy_false_of_nonNull_false {v : JsValue} (h : jsNonNull v = false) :
    jsTruthy v = false := by
  cases v <;> simp_all [jsNonNull, jsTruthy]

/-- The tool element the upsert leaves behind after the same event is
applied twice: every rendered field comes from the event. -/
def finalToolPart (d : ToolData) : ToolPart :=
  { toolId := some (jsToDisplayString d.id)
    tool := d.tool
    status := d.status
    shownInput :=
      if jsTruthy d.input ∧ 0 < objKeysLen d.input then some d.input else none
    shownOutput := if jsTruthy d.output then some d.output else none
    shownError := if jsTruthy d.error then some d.error else none
    title := jsToDisplayString (jsOr d.title d.tool)
    category := if jsTruthy d.category then some d.category else none }

/-- How many parts of the message carry the given data-tool-id. -/
def countToolIdParts (parts : List MsgPart) (key : String) : Nat :=
  (parts.filter (partMatchesToolId key)).length

/-- How many questionnaire blocks the message holds. -/
def countQuestionnaires (parts : List MsgPart) : Nat :=
  (parts.filter (fun p => match p with
    | .questionnaire _ => true
    | _ => false)).length

/-- The question tool event used by the counterexample. -/
def questionToolData : ToolData :=
  { id := .str "q1"
    tool := .str "question"
    status := .str "running"
    input := .obj [("questions", .arr [.obj []])]
    output := .undefined
    title := .undefined
    error := .undefined
    category := .undefined }

/-- C3 counterexample: processing the same question-tool event (tool
question with a questions input) twice creates no ToolCall part at all
and renders the questionnaire twice, so replaying a tool event with an
identical id does not always leave exactly one ToolCall part. -/
theorem question_tool_duplicates_questionnaire :
    countToolIdParts
      (msgParts (appHandleToolEvent (appHandleToolEvent appReady questionToolData)
        questionToolData)) "q1" = 0 ∧
    countQuestionnaires
      (msgParts (appHandleToolEvent (appHandleToolEvent appReady questionToolData)
        questionToolData)) = 2 :=
  ⟨rfl, rfl⟩

/-- The tool element created by the first processing of an event with a
truthy id: the fresh element with the data-tool-id attribute attached. -/
def createdToolPart (d : ToolData) : ToolPart :=
  { newToolPart d with toolId := some (jsToDisplayString d.id) }

theorem applyUpdate_newToolPart (d : ToolData) :
    applyUpdateToolStatus d (createdToolPart d) = finalToolPart d := by
  by_cases hI : jsTruthy d.input ∧ 0 < objKeysLen d.input <;>
    by_cases hO : jsTruthy d.output = true <;>
      by_cases hE : jsTruthy d.error = true <;>
        simp [applyUpdateToolStatus, createdToolPart, newToolPart, finalToolPart, hI, hO, hE]

/-- C3 (amended): for tool events other than the reserved question tool,
processing the same event with an identical truthy id twice leaves
exactly one ToolCall part whose final fields all come from the event
(empty or falsy optional fields are simply not rendered), and updates of
an existing ToolCall merge at field level: an event whose input, output
or error is null or absent never erases the previously rendered value of
that field (the status is overwritten).  A question-tool event instead
renders a questionnaire and creates no ToolCall part, and replaying it
duplicates the questionnaire. -/
theorem toolEvent_upsert (d d2 : ToolData) (st : AppState) (parts : List MsgPart)
    (p : ToolPart)
    (hq : ¬(jsIsStr d.tool "question" = true ∧ jsTruthy (jsGet d.input "questions") = true))
    (hid : jsTruthy d.id = true)
    (hmsg : st.currentMessage = some parts)
    (hnone : firstMatchIdx (partMatchesToolId (jsToDisplayString d.id)) parts = none)
    (hin : jsNonNull d2.input = false)
    (hout : jsNonNull d2.output = false)
    (herr : jsNonNull d2.error = false) :
    msgParts (appHandleToolEvent (appHandleToolEvent st d) d) =
      parts ++ [.toolResult (finalToolPart d)] ∧
    countToolIdParts (msgParts (appHandleToolEvent (appHandleToolEvent st d) d))
      (jsToDisplayString d.id) = 1 ∧
    (applyUpdateToolStatus d2 p).status = d2.status ∧
    (applyUpdateToolStatus d2 p).shownInput = p.shownInput ∧
    (applyUpdateToolStatus d2 p).shownOutput = p.shownOutput ∧
    (applyUpdateToolStatus d2 p).shownError = p.shownError := by
  have hI := jsTruthy_false_of_nonNull_false hin
  have hO := jsTruthy_false_of_nonNull_false hout
  have hE := jsTruthy_false_of_nonNull_false herr
  have h1 : appHandleToolEvent st d =
      { st with currentMessage := some (parts ++ [.toolResult (createdToolPart d)]) } := by
    unfold appHandleToolEvent
    rw [if_neg hq, hmsg]
    dsimp only
    rw [hnone]
    dsimp only
    rw [if_pos hid]
    rfl
  have hmatch : partMatchesToolId (jsToDisplayString d.id)
      (.toolResult (createdToolPart d)) = true := by
    simp [partMatchesToolId, createdToolPart]
  have hfind := firstMatchIdx_append_none
    (partMatchesToolId (jsToDisplayString d.id)) parts
    (.toolResult (createdToolPart d)) hnone
  rw [hmatch, if_pos rfl] at hfind
  have h2 : appHandleToolEvent (appHandleToolEvent st d) d =
      { st with currentMessage := some (parts ++ [.toolResult (finalToolPart d)]) } := by
    rw [h1]
    unfold appHandleToolEvent
    rw [if_neg hq]
    dsimp only
    rw [hfind]
    dsimp only
    rw [listUpdateAt_append_end]
    dsimp only
    rw [applyUpdate_newToolPart]
  refine ⟨?_, ?_, ?_, ?_, ?_, ?_⟩
  · rw [h2]
    rfl
  · rw [h2]
    show countToolIdParts (parts ++ [.toolResult (finalToolPart d)]) _ = 1
    unfold countToolIdParts
    rw [List.filter_append, filter_eq_nil_of_firstMatchIdx_none _ _ hnone]
    simp [partMatchesToolId, finalToolPart]
  · simp [applyUpdateToolStatus]
  · simp [applyUpdateToolStatus, hI]
  · simp [applyUpdateToolStatus, hO]
  · simp [applyUpdateToolStatus, hE]

/-- A regular tool event with every field populated. -/
def demoToolData : ToolData :=
  { id := .str "t1"
    tool := .str "bash"
    status := .str "completed"
    input := .obj [("cmd", .str "ls")]
    output := .str "ok"
    title := .undefined
    error := .undefined
    category := .str "execution" }

/-- A replayed event for the same id whose optional fields are null or
absent. -/
def demoNullData : ToolData :=
  { id := .str "t1"
    tool := .str "bash"
    status := .str "completed"
    input := .null
    output := .undefined
    error := .null
    title := .undefined
    category := .undefined }

/-- C3 witness: the upsert theorem applied to a concrete bash tool event
processed twice from an empty assistant message, with a null-field
replay against the resulting element. -/
theorem toolEvent_upsert_witness :
    msgParts (appHandleToolEvent (appHandleToolEvent appReady demoToolData) demoToolData) =
      [.toolResult (finalToolPart demoToolData)] ∧
    countToolIdParts
      (msgParts (appHandleToolEvent (appHandleToolEvent appReady demoToolData) demoToolData))
      "t1" = 1 ∧
    (applyUpdateToolStatus demoNullData (finalToolPart demoToolData)).status = demoNullData.status ∧
    (applyUpdateToolStatus demoNullData (finalToolPart demoToolData)).shownInput =
      (finalToolPart demoToolData).shownInput ∧
    (applyUpdateToolStatus demoNullData (finalToolPart demoToolData)).shownOutput =
      (finalToolPart demoToolData).shownOutput ∧
    (applyUpdateToolStatus demoNullData (finalToolPart demoToolData)).shownError =
      (finalToolPart demoToolData).shownError := by
  have h := toolEvent_upsert demoToolData demoNullData appReady [] (finalToolPart demoToolData)
    (by decide) rfl rfl rfl rfl rfl rfl
  simpa [demoToolData, jsToDisplayString_str] using h

/-! ## C4: sub-agent lifecycle monotonicity -/

theorem mapHas_mapDelete (m : List (String × α)) (k : String) :
    mapHas (mapDelete m k) k = false := by
  induction m with
  | nil => rfl
  | cons q rest ih =>
    by_cases hq : (q.1 == k) = true
    · simpa [mapDelete, mapHas, mapFind, hq] using ih
    · simpa [mapDelete, mapHas, mapFind, hq] using ih

theorem mapHas_false_of_mapFind_none {m : List (String × α)} {k : String}
    (hf : mapFind m k = none) : mapHas m k = false := by
  simp [mapHas, hf]

/-- The part payload of a sub-agent (task tool) frame with the given id
and lifecycle status. -/
def subagentPartPayload (idStr status : String) : PartPayload :=
  { type := .str "tool"
    text := .undefined
    tool := .str "task"
    id := .str idStr
    state := some { status := .str status, input := .undefined, output := .undefined, title := .undefined, error := .undefined }
    reason := .undefined
    tokens := .undefined }

/-- A full sub-agent frame. -/
def subagentFrame (idStr status : String) : IncomingEvent :=
  { baseEvent with
    type := .str "message.part.updated"
    properties := some { noProps with part := some (subagentPartPayload idStr status) } }

/-- The lifecycle statuses of the sub-agent panels of a message, in
render order. -/
def panelStatuses (parts : List MsgPart) : List JsValue :=
  parts.filterMap (fun p => match p with
    | .subagentPanel sp => some sp.lastData.status
    | _ => none)

/-- C4: the sub-agent lifecycle is monotonic per id.  A completed or
failed event removes that id from the live-tracking maps (the decoder's
and the application's), and later events for the same id are handled as
a fresh task: running the scenario pending, running, completed for id
a1 leaves exactly one terminal panel with status completed and the id
tracked nowhere, and a subsequent failed event for a1 appends a new
failed panel while leaving the completed panel untouched and the id
still untracked. -/
theorem subagent_lifecycle_monotonic (now : Nat)
    (live : List (String × SubagentData)) (part : PartPayload)
    (ev : IncomingEvent) (st : AppState) (d : SubagentData)
    (hterm : jsIsStr (part.state.getD emptyToolState).status "completed" = true ∨
      jsIsStr (part.state.getD emptyToolState).status "failed" = true) :
    mapHas (handleSubagentEvent now live part ev).1 (subagentPartId now part) = false ∧
    mapHas (appSubagentFinish st d).appSubagents d.id = false ∧
    (sysRun 7 sysReady [subagentFrame "a1" "pending", subagentFrame "a1" "running",
        subagentFrame "a1" "completed"]).1.live = [] ∧
    (sysRun 7 sysReady [subagentFrame "a1" "pending", subagentFrame "a1" "running",
        subagentFrame "a1" "completed"]).1.app.appSubagents = [] ∧
    panelStatuses (msgParts (sysRun 7 sysReady [subagentFrame "a1" "pending",
        subagentFrame "a1" "running", subagentFrame "a1" "completed"]).1.app) =
      [.str "completed"] ∧
    (sysRun 7 sysReady [subagentFrame "a1" "pending", subagentFrame "a1" "running",
        subagentFrame "a1" "completed", subagentFrame "a1" "failed"]).1.app.appSubagents = [] ∧
    panelStatuses (msgParts (sysRun 7 sysReady [subagentFrame "a1" "pending",
        subagentFrame "a1" "running", subagentFrame "a1" "completed",
        subagentFrame "a1" "failed"]).1.app) = [.str "completed", .str "failed"] := by
  refine ⟨?_, ?_, rfl, rfl, rfl, rfl, rfl⟩
  · rcases hterm with h | h <;>
    · have hs := jsIsStr_eq h
      simp [handleSubagentEvent, hs, jsIsStr, mapHas_mapDelete]
  · unfold appSubagentFinish
    cases hf : mapFind st.appSubagents d.id with
    | none =>
      cases st.currentMessage <;> simpa using mapHas_false_of_mapFind_none hf
    | some idx =>
      cases st.currentMessage <;> simp [mapHas_mapDelete]

/-- C4 witness: the theorem applied to a concrete completed sub-agent
part in a fresh decoder and application state. -/
theorem subagent_lifecycle_monotonic_witness :
    mapHas (handleSubagentEvent 7 [] (subagentPartPayload "b2" "completed") baseEvent).1
      (subagentPartId 7 (subagentPartPayload "b2" "completed")) = false ∧
    mapHas (appSubagentFinish appReady
      { id := "b2", status := .str "completed", subagentType := .str "general",
        description := .str "", prompt := .str "", output := .str "", title := .str "",
        error := .null, parsed := .null }).appSubagents "b2" = false := by
  have h := subagent_lifecycle_monotonic 7 [] (subagentPartPayload "b2" "completed")
    baseEvent appReady
    { id := "b2", status := .str "completed", subagentType := .str "general",
      description := .str "", prompt := .str "", output := .str "", title := .str "",
      error := .null, parsed := .null }
    (Or.inl rfl)
  exact ⟨h.1, h.2.1⟩

/-! ## C7: abort idempotence and fail-open cleanup -/

/-- C7: abort is idempotent and fail-open.  With no session or project
selected it does nothing at all; when the local streaming state is
already clear (no stream connection, input ready) it leaves the state
exactly as it is, whatever the remote call does; and whenever it runs —
in particular when the remote cancel request throws, b = true — the
finally block clears the streaming flag, drops the stream connection,
and returns the input UI to ready. -/
theorem abortMessage_idempotent_failopen (st : AppState) (b : Bool) :
    ((st.currentSession = none ∨ st.currentProject = none) →
      abortMessage st b = (st, [])) ∧
    (st.isStreaming = false → st.eventStream = false → st.sendBtnVisible = true →
      st.stopBtnVisible = false → (abortMessage st b).1 = st) ∧
    (¬(st.currentSession = none ∨ st.currentProject = none) →
      (abortMessage st b).1.isStreaming = false ∧
      (abortMessage st b).1.eventStream = false ∧
      (abortMessage st b).1.sendBtnVisible = true ∧
      (abortMessage st b).1.stopBtnVisible = false ∧
      (abortMessage st b).2 = [.apiAbortSession] ++
        (if b then [] else [.toast "生成已停止" "info"]) ++
        [.statusUpdate "准备就绪" "⚡"]) := by
  refine ⟨?_, ?_, ?_⟩
  · intro h
    unfold abortMessage
    rw [if_pos (by rcases h with h | h <;> simp [h])]
  · intro h1 h2 h3 h4
    unfold abortMessage
    by_cases hg : st.currentSession.isNone ∨ st.currentProject.isNone
    · rw [if_pos hg]
    · rw [if_neg hg]
      show stopStreaming st = st
      cases st
      simp_all [stopStreaming]
  · intro h
    unfold abortMessage
    rw [if_neg]
    · simp [stopStreaming]
    · rcases Option.eq_none_or_eq_some st.currentSession with hs | ⟨s, hs⟩ <;>
        rcases Option.eq_none_or_eq_some st.currentProject with hp | ⟨p, hp⟩ <;>
          simp [hs, hp] at h ⊢

/-- C7 witness: the abort theorem applied with a throwing remote call to
a state without a session, to an already-stopped state, and to the live
streaming state. -/
theorem abortMessage_idempotent_failopen_witness :
    abortMessage { appReady with currentSession := none } true =
      ({ appReady with currentSession := none }, []) ∧
    (abortMessage (stopStreaming appReady) true).1 = stopStreaming appReady ∧
    (abortMessage appReady true).1.isStreaming = false ∧
    (abortMessage appReady true).1.eventStream = false ∧
    (abortMessage appReady true).2 = [.apiAbortSession, .statusUpdate "准备就绪" "⚡"] := by
  refine ⟨?_, ?_, ?_, ?_, ?_⟩
  · exact (abortMessage_idempotent_failopen { appReady with currentSession := none } true).1
      (Or.inl rfl)
  · exact (abortMessage_idempotent_failopen (stopStreaming appReady) true).2.1 rfl rfl rfl rfl
  · exact ((abortMessage_idempotent_failopen appReady true).2.2 (by simp [appReady])).1
  · exact ((abortMessage_idempotent_failopen appReady true).2.2 (by simp [appReady])).2.1
  · have := ((abortMessage_idempotent_failopen appReady true).2.2 (by simp [appReady])).2.2.2.2
    simpa using this

/-! ## C9: 504 send timeout with a live stream -/

/-- Whether any effect in the list surfaces a toast to the user. -/
def hasToast (effs : List Effect) : Bool :=
  effs.any (fun e => match e with
    | .toast _ _ => true
    | _ => false)

/-- C9: when the send request fails with a 504-style timeout while the
stream connection object is still present, no toast is surfaced and the
streaming state stays active waiting for stream-delivered completion;
and when no live stream exists at the catch, the failure is reported
with a toast and streaming is stopped. -/
theorem send_timeout_with_live_stream (env : SendEnv) (st : AppState)
    (content pr sid msg : String) (st2 : AppState) (msg2 : String)
    (hproj : st.currentProject = some pr)
    (hsess : st.currentSession = some sid)
    (hnostream : st.isStreaming = false)
    (hcontent : content ≠ "")
    (herr : env.sendResult = .err msg)
    (h504 : mentions504 msg = true)
    (h5042 : mentions504 msg2 = true)
    (hdead : st2.eventStream = false) :
    (sendMessage env st (some content) none).1.isStreaming = true ∧
    (sendMessage env st (some content) none).1.eventStream = true ∧
    hasToast (sendMessage env st (some content) none).2 = false ∧
    sendCatchHandler st2 msg2 =
      (stopStreaming st2, [.toast "发送消息失败" "error", .statusUpdate "准备就绪" "⚡"]) := by
  have hlast : sendCatchHandler st2 msg2 =
      (stopStreaming st2, [.toast "发送消息失败" "error", .statusUpdate "准备就绪" "⚡"]) := by
    unfold sendCatchHandler
    rw [if_neg]
    intro hc
    rw [hdead] at hc
    exact absurd hc.2 (by simp)
  have h504c : charsContain ['5', '0', '4'] msg.data = true := by
    simpa [mentions504] using h504
  refine ⟨?_, ?_, ?_, hlast⟩ <;>
  · unfold sendMessage
    rw [if_neg (by simp [hproj])]
    by_cases hq : st.isQuestionPending <;>
      simp [hq, setInputQuestionMode, hproj, hsess, hnostream, hcontent, herr,
        startAssistantMessage, connectEventStream, hasToast, mentions504, h504c,
        apply_ite, stopStreaming, sendCatchHandler]

/-- C9 witness: the timeout theorem applied to a concrete 504 rejection
in the ready state with project and session selected. -/
theorem send_timeout_with_live_stream_witness :
    (sendMessage ⟨some "s2", .err "HTTP 504 Gateway Timeout"⟩ (stopStreaming appReady)
      (some "hello") none).1.isStreaming = true ∧
    (sendMessage ⟨some "s2", .err "HTTP 504 Gateway Timeout"⟩ (stopStreaming appReady)
      (some "hello") none).1.eventStream = true ∧
    hasToast (sendMessage ⟨some "s2", .err "HTTP 504 Gateway Timeout"⟩ (stopStreaming appReady)
      (some "hello") none).2 = false ∧
    sendCatchHandler (stopStreaming appReady) "HTTP 504 Gateway Timeout" =
      (stopStreaming (stopStreaming appReady),
        [.toast "发送消息失败" "error", .statusUpdate "准备就绪" "⚡"]) := by
  exact send_timeout_with_live_stream ⟨some "s2", .err "HTTP 504 Gateway Timeout"⟩
    (stopStreaming appReady) "hello" "/work/demo" "sess-1" "HTTP 504 Gateway Timeout"
    (stopStreaming appReady) "HTTP 504 Gateway Timeout"
    rfl rfl rfl (by decide) rfl (by decide) (by decide) rfl

/-! ## C6: pending-question state -/

/-- A question.asked frame carrying the given request id. -/
def questionFrame (qid : JsValue) : IncomingEvent :=
  { baseEvent with
    type := .str "question.asked"
    properties := some { noProps with questionId := qid, questionsField := .arr [] } }

/-- A send environment whose session creation succeeds and whose send
resolves without a synchronous body. -/
def demoSendEnv : SendEnv := { createResult := some "s-new", sendResult := .ok .null }

/-- The state after a question has been observed mid-stream. -/
def questionState : AppState := (sysStep 0 sysReady (questionFrame (.str "r1"))).1.app

/-- The state after the user then sends a normal message. -/
def afterSendState : AppState := (sendMessage demoSendEnv questionState (some "hi") none).1

/-- C6 counterexample: observing a question sets the stored request id
and question-mode, but a subsequent message send exits question-mode
without clearing the stored request id, so the claimed clear-on-send and
the invariant question-mode iff id-non-null both fail. -/
theorem send_leaves_question_id_set :
    questionState.pendingQuestionRequestId = .str "r1" ∧
    questionState.isQuestionPending = true ∧
    afterSendState.isQuestionPending = false ∧
    afterSendState.pendingQuestionRequestId = .str "r1" ∧
    (afterSendState.isQuestionPending == jsNonNull afterSendState.pendingQuestionRequestId) = false :=
  ⟨rfl, rfl, rfl, rfl, rfl⟩

theorem sendMessage_keeps_question_id (senv : SendEnv) (st : AppState)
    (content : String) (pr : String) (hproj : st.currentProject = some pr) :
    (sendMessage senv st (some content) none).1.pendingQuestionRequestId =
      st.pendingQuestionRequestId ∧
    (sendMessage senv st (some content) none).1.isQuestionPending = false := by
  unfold sendMessage
  rw [if_neg (by simp [hproj])]
  set st1 := if st.isQuestionPending then setInputQuestionMode st false else st with hst1
  have h1a : st1.pendingQuestionRequestId = st.pendingQuestionRequestId := by
    rw [hst1]
    split <;> simp [setInputQuestionMode]
  have h1b : st1.isQuestionPending = false := by
    rw [hst1]
    split
    · simp [setInputQuestionMode]
    · next h => simpa using h
  dsimp only
  split
  · exact ⟨h1a, h1b⟩
  split
  · exact ⟨h1a, h1b⟩
  split
  · exact ⟨h1a, h1b⟩
  next st2 effs0 heq =>
  have h2 : st2.pendingQuestionRequestId = st.pendingQuestionRequestId ∧
      st2.isQuestionPending = false := by
    split at heq
    · cases hcr : senv.createResult with
      | none => rw [hcr] at heq; cases heq
      | some sid =>
        rw [hcr] at heq
        injection heq with heq2
        injection heq2 with heq3 heq4
        rw [← heq3]
        exact ⟨h1a, h1b⟩
    · injection heq with heq2
      injection heq2 with heq3 heq4
      rw [← heq3]
      exact ⟨h1a, h1b⟩
  (repeat' split) <;>
    (try simp [startAssistantMessage, connectEventStream, stopStreaming,
      sendCatchHandler, h2.1, h2.2])
  all_goals (repeat' split) <;> exact ⟨rfl, rfl⟩

/-- C6 (amended): the pending-question request id is set when a question
is observed (question-mode switches on with it), and is cleared on reply
whether the reply call resolves or rejects (question-mode off); a new
message send exits question-mode but does not clear the stored request
id, so the invariant that the input box is in question-mode iff the
stored id is non-null does not survive a send performed while a question
is pending — and no reject path is wired to the UI (the original claim
said the id is also cleared on send and the invariant always holds). -/
theorem question_state_lifecycle (now : Nat) (st : AppState) (qid questions : JsValue)
    (parts : List MsgPart) (env : ReplyEnv) (answers : List (String × JsValue))
    (qsv : JsValue) (senv : SendEnv) (content pr : String)
    (hmsg : st.currentMessage = some parts)
    (hreq : jsTruthy st.pendingQuestionRequestId = true)
    (hproj : st.currentProject = some pr) :
    ((appHandleStreamEvent now st (.questionAsked qid questions)).1.pendingQuestionRequestId = qid ∧
     (appHandleStreamEvent now st (.questionAsked qid questions)).1.isQuestionPending = true) ∧
    ((submitQuestionnaire env st answers qsv).1.pendingQuestionRequestId = .null ∧
     (submitQuestionnaire env st answers qsv).1.isQuestionPending = false) ∧
    ((sendMessage senv st (some content) none).1.pendingQuestionRequestId =
       st.pendingQuestionRequestId ∧
     (sendMessage senv st (some content) none).1.isQuestionPending = false) := by
  refine ⟨?_, ?_, sendMessage_keeps_question_id senv st content pr hproj⟩
  · simp [appHandleStreamEvent, hmsg, setInputQuestionMode]
  · simp [submitQuestionnaire, setInputQuestionMode, hreq, hproj, apply_ite]

/-- C6 witness: the lifecycle theorem applied in the question-pending
state reached by the concrete run of the counterexample. -/
theorem question_state_lifecycle_witness :
    ((appHandleStreamEvent 0 questionState (.questionAsked (.str "r9") (.arr []))).1.pendingQuestionRequestId = .str "r9" ∧
     (appHandleStreamEvent 0 questionState (.questionAsked (.str "r9") (.arr []))).1.isQuestionPending = true) ∧
    ((submitQuestionnaire ⟨false, demoSendEnv⟩ questionState [] (.arr [])).1.pendingQuestionRequestId = .null ∧
     (submitQuestionnaire ⟨false, demoSendEnv⟩ questionState [] (.arr [])).1.isQuestionPending = false) ∧
    ((sendMessage demoSendEnv questionState (some "hi") none).1.pendingQuestionRequestId =
       questionState.pendingQuestionRequestId ∧
     (sendMessage demoSendEnv questionState (some "hi") none).1.isQuestionPending = false) := by
  exact question_state_lifecycle 0 questionState (.str "r9") (.arr [])
    (msgParts questionState) ⟨false, demoSendEnv⟩ [] (.arr []) demoSendEnv "hi" "/work/demo"
    rfl rfl rfl
